import Mathlib

/-!
Verification of the graph-based AML structuring detector (`aml_engine.py`).

The script builds a directed transaction graph with `networkx.DiGraph` and
scans it for "fan-in" hubs: nodes with `in_degree >= 5` whose mean inbound
amount is `< 50000`.

Shallow embedding notes:
* A `networkx.DiGraph` keeps its nodes in insertion order and at most ONE
  edge per ordered `(src, dst)` pair; `add_edge` on an existing pair
  overwrites the edge attributes in place (the edge keeps its original
  position).  We model the graph as an insertion-ordered node list plus an
  insertion-ordered edge list with unique `(src, dst)` keys, and `addEdge`
  performs the dict-update semantics.
* Transaction amounts are modelled as rationals (`ℚ`); the concrete amounts
  used by the script and by the spec scenarios are exact in both.
* A missing CSV id (pandas `NaN`) is modelled by `none : Option String`;
  the script performs no missing-id check, so the value flows into
  `add_edge` like any other node key.
-/

namespace AmlEngine

/-- Node identifiers: `some s` is an ordinary account id string, `none`
models a missing id (pandas `NaN`) flowing into the graph unchecked. -/
abbrev NodeId := Option String

/-- One row of the filtered data frame: the columns of `paysim.csv` that the
graph-building loop actually reads (`nameOrig`, `nameDest`, `amount`,
`type`). -/
structure Txn where
  nameOrig : NodeId
  nameDest : NodeId
  amount : ℚ
  type : String
  deriving DecidableEq, Repr

/-- A stored directed edge with its `weight` and `type` attributes, as set by
`G.add_edge(row['nameOrig'], row['nameDest'], weight=row['amount'],
type=row['type'])`. -/
structure Edge where
  src : NodeId
  dst : NodeId
  weight : ℚ
  type : String
  deriving DecidableEq, Repr

/-- The `nx.DiGraph`: nodes in insertion order, edges in first-insertion
order with (by construction) at most one edge per ordered key. -/
structure Graph where
  nodes : List NodeId
  edges : List Edge
  deriving DecidableEq, Repr

/-- The empty graph `nx.DiGraph()`. -/
def emptyGraph : Graph := ⟨[], []⟩

/-- Implicit node registration performed by `add_edge`: a dict insert that
keeps the first position of an already-present key. -/
def addNode (ns : List NodeId) (x : NodeId) : List NodeId :=
  if x ∈ ns then ns else ns ++ [x]

/-- Dict-update of the adjacency structure: replace the attributes of the
existing `(u, v)` edge in place, or append a fresh edge at the end. -/
def updateEdges : List Edge → NodeId → NodeId → ℚ → String → List Edge
  | [], u, v, w, t => [⟨u, v, w, t⟩]
  | e :: es, u, v, w, t =>
      if e.src = u ∧ e.dst = v then ⟨u, v, w, t⟩ :: es
      else e :: updateEdges es u v w t

/-- Models `G.add_edge(u, v, weight=w, type=t)` on a `DiGraph`: registers both
endpoints and overwrites any existing `(u, v)` edge. -/
def addEdge (g : Graph) (u v : NodeId) (w : ℚ) (t : String) : Graph :=
  ⟨addNode (addNode g.nodes u) v, updateEdges g.edges u v w t⟩

/-- The category filter `df['type'].isin(['TRANSFER', 'CASH_OUT'])`. -/
def keepTxn (r : Txn) : Bool :=
  r.type = "TRANSFER" || r.type = "CASH_OUT"

/-- Sampling cap `SAMPLE_SIZE = 50000`. -/
def sampleSize : ℕ := 50000

/-- The sampled frame `df_sample = df_filtered.head(SAMPLE_SIZE)`. -/
def dfSample (rows : List Txn) : List Txn :=
  (rows.filter keepTxn).take sampleSize

/-- The edge-insertion loop:
`for index, row in df_sample.iterrows(): G.add_edge(...)`. -/
def buildGraph (rows : List Txn) : Graph :=
  rows.foldl (fun g r => addEdge g r.nameOrig r.nameDest r.amount r.type) emptyGraph

/-- Whole graph-building pipeline: category filter, sampling, edge loop. -/
def buildPipeline (rows : List Txn) : Graph :=
  buildGraph (dfSample rows)

/-- Models `G.in_edges(node, data=True)`: predecessor edges in first-insertion
order (dict-update keeps positions, so filtering the global edge list by
destination reproduces the `pred[node]` iteration order). -/
def inEdges (g : Graph) (v : NodeId) : List Edge :=
  g.edges.filter (fun e => e.dst = v)

/-- The loop's `in_degree = len(in_edges)`. -/
def inDegree (g : Graph) (v : NodeId) : ℕ :=
  (inEdges g v).length

/-- The loop's `amounts = [data['weight'] for u, v, data in in_edges]`. -/
def inAmounts (g : Graph) (v : NodeId) : List ℚ :=
  (inEdges g v).map Edge.weight

/-- The loop's `avg_amount = sum(amounts) / len(amounts)`. -/
def meanInbound (g : Graph) (v : NodeId) : ℚ :=
  (inAmounts g v).sum / (inDegree g v : ℚ)

/-- The per-node test of the smurf-hunting loop, with the two hard-coded
thresholds (`5`, `50000`) abstracted as the parameters the spec's `detect`
contract names. -/
def hubPred (dmin : ℕ) (mmax : ℚ) (g : Graph) (v : NodeId) : Bool :=
  decide (dmin ≤ inDegree g v) && decide (meanInbound g v < mmax)

/-- The smurf-hunting loop `for node in G.nodes(): ...` with thresholds as
parameters: appending a node exactly when it passes both checks is the
filter of the node list (in insertion order) by `hubPred`. -/
def detectWith (dmin : ℕ) (mmax : ℚ) (g : Graph) : List NodeId :=
  g.nodes.filter (hubPred dmin mmax g)

/-- The detector exactly as the script runs it: thresholds hard-coded to
`in_degree >= 5` and `avg_amount < 50000`; the result is the list of bare
node ids appended to `suspicious_accounts`. -/
def detect (g : Graph) : List NodeId :=
  detectWith 5 50000 g

/-! ### Spec scenario inputs -/

/-- A well-formed `TRANSFER` row. -/
def mkTxn (o d : String) (a : ℚ) : Txn :=
  ⟨some o, some d, a, "TRANSFER"⟩

/-- Scenario A of the spec: five distinct senders into `R1` with amounts
[1000, 2000, 1500, 3000, 2500] plus one unrelated edge. -/
def scenarioA : List Txn :=
  [mkTxn "S1" "R1" 1000, mkTxn "S2" "R1" 2000, mkTxn "S3" "R1" 1500,
   mkTxn "S4" "R1" 3000, mkTxn "S5" "R1" 2500, mkTxn "X" "Y" 999]

/-- Scenario B of the spec: same structure, amounts
[40000, 60000, 45000, 55000, 50000] (mean exactly 50000). -/
def scenarioB : List Txn :=
  [mkTxn "S1" "R1" 40000, mkTxn "S2" "R1" 60000, mkTxn "S3" "R1" 45000,
   mkTxn "S4" "R1" 55000, mkTxn "S5" "R1" 50000, mkTxn "X" "Y" 999]

/-- Two retained transactions over the same ordered pair `A → R`. -/
def dupTxns : List Txn :=
  [⟨some "A", some "R", 100, "TRANSFER"⟩, ⟨some "A", some "R", 200, "TRANSFER"⟩]

/-- A retained record whose sender id is missing (`NaN`). -/
def missingTxn : Txn := ⟨none, some "R", 100, "TRANSFER"⟩

/-! ### Derived views used in the analysis -/

/-- The dict key under which a `DiGraph` stores an edge. -/
def edgeKey (e : Edge) : NodeId × NodeId :=
  (e.src, e.dst)

/-- Models `G[u][v]`: the attributes currently stored for the ordered pair
`(u, v)`, when present. -/
def edgeLookup (g : Graph) (u v : NodeId) : Option (ℚ × String) :=
  (g.edges.find? (fun e => e.src = u && e.dst = v)).map (fun e => (e.weight, e.type))

/-- The most recent input record over the ordered pair `(u, v)`. -/
def lastTxnTo (rs : List Txn) (u v : NodeId) : Option Txn :=
  rs.reverse.find? (fun r => r.nameOrig = u && r.nameDest = v)

/-- The senders of all records into `v`, in record order (with repeats). -/
def sendersInto (rs : List Txn) (v : NodeId) : List NodeId :=
  (rs.filter (fun r => r.nameDest = v)).map (fun r => r.nameOrig)

/-- One iteration of the smurf-hunting loop with the program state threaded
explicitly: the state is the pair (graph, `suspicious_accounts`); the body
only reads the graph (`G.in_edges`) and appends to the accumulator. -/
def detectStep (dmin : ℕ) (mmax : ℚ) (st : Graph × List NodeId) (v : NodeId) :
    Graph × List NodeId :=
  let g := st.1
  let ie := inEdges g v
  if dmin ≤ ie.length then
    if (ie.map Edge.weight).sum / (ie.length : ℚ) < mmax then (g, st.2 ++ [v])
    else (g, st.2)
  else (g, st.2)

/-- The whole loop as a stateful computation: fold `detectStep` over the
node list starting from the built graph and an empty accumulator, returning
the final program state. -/
def detectRun (dmin : ℕ) (mmax : ℚ) (g : Graph) : Graph × List NodeId :=
  g.nodes.foldl (detectStep dmin mmax) (g, [])

/-- Division with an explicit zero-divisor check, to make the reachability
of `sum(amounts) / len(amounts)` with `len(amounts) == 0` (Python
`ZeroDivisionError`) observable in the model. -/
def qdivChecked (x : ℚ) (n : ℕ) : Option ℚ :=
  if n = 0 then none else some (x / (n : ℚ))

/-- The per-node test with the checked division: `none` marks the states in
which Python would raise `ZeroDivisionError`. -/
def hubPredChecked (dmin : ℕ) (mmax : ℚ) (g : Graph) (v : NodeId) : Option Bool :=
  if dmin ≤ inDegree g v then
    (qdivChecked (inAmounts g v).sum (inDegree g v)).map (fun avg => decide (avg < mmax))
  else some false

/-- The detector with the checked division threaded through every node:
`none` iff some visited node reaches a division by zero. -/
def detectChecked (dmin : ℕ) (mmax : ℚ) (g : Graph) : Option (List NodeId) :=
  g.nodes.foldr
    (fun v acc =>
      (hubPredChecked dmin mmax g v).bind
        (fun b => acc.map (fun rest => if b then v :: rest else rest)))
    (some [])

/-- Modelled from the spec: the `HubClassification` record of §3/§4.2
(account id, in-degree, mean inbound amount, raw inbound (sender, amount)
pairs).  The script itself emits no such record — `suspicious_accounts`
collects bare node ids — so this type exists only to compare the script's
output against the spec's description. -/
structure HubClassification where
  account_id : NodeId
  in_degree : ℕ
  mean_inbound_amount : ℚ
  inbound_edges : List (NodeId × ℚ)
  deriving DecidableEq, Repr

/-- Modelled from the spec: the emission step of §4.2, attaching to each
detected node the statistics the spec says the detector must expose. -/
def detectFull (dmin : ℕ) (mmax : ℚ) (g : Graph) : List HubClassification :=
  (detectWith dmin mmax g).map
    (fun v =>
      ⟨v, inDegree g v, meanInbound g v, (inEdges g v).map (fun e => (e.src, e.weight))⟩)

/-! ### Structural lemmas about the builder -/

lemma buildGraph_append (rs : List Txn) (r : Txn) :
    buildGraph (rs ++ [r]) =
      addEdge (buildGraph rs) r.nameOrig r.nameDest r.amount r.type := by
  simp [buildGraph, List.foldl_append]

lemma find?_updateEdges (es : List Edge) (u v u' v' : NodeId) (w : ℚ) (t : String) :
    (updateEdges es u v w t).find? (fun e => e.src = u' && e.dst = v') =
      if u = u' ∧ v = v' then some ⟨u, v, w, t⟩
      else es.find? (fun e => e.src = u' && e.dst = v') := by
  induction es with
  | nil =>
    by_cases h1 : u = u' <;> by_cases h2 : v = v' <;>
      simp [updateEdges, List.find?, h1, h2]
  | cons e es ih =>
    by_cases he : e.src = u ∧ e.dst = v
    · rw [updateEdges, if_pos he]
      by_cases h : u = u' ∧ v = v'
      · simp [List.find?, h.1, h.2, h]
      · have hp : ¬(e.src = u' ∧ e.dst = v') := by
          rw [he.1, he.2]; exact h
        simp only [List.find?]
        rw [if_neg h]
        by_cases h1 : u = u' <;> by_cases h2 : v = v' <;>
          simp_all [List.find?]
    · rw [updateEdges, if_neg he]
      by_cases hp : e.src = u' ∧ e.dst = v'
      · have h : ¬(u = u' ∧ v = v') := by
          intro h
          exact he ⟨hp.1.trans h.1.symm, hp.2.trans h.2.symm⟩
        simp [List.find?, hp.1, hp.2, h]
      · simp only [List.find?]
        by_cases h1 : e.src = u' <;> by_cases h2 : e.dst = v' <;>
          simp_all [ih]

lemma edgeLookup_addEdge (g : Graph) (u v u' v' : NodeId) (w : ℚ) (t : String) :
    edgeLookup (addEdge g u v w t) u' v' =
      if u = u' ∧ v = v' then some (w, t) else edgeLookup g u' v' := by
  simp only [edgeLookup, addEdge, find?_updateEdges]
  by_cases h : u = u' ∧ v = v' <;> simp [h]

lemma edgeLookup_buildGraph (rs : List Txn) (u v : NodeId) :
    edgeLookup (buildGraph rs) u v =
      (lastTxnTo rs u v).map (fun r => (r.amount, r.type)) := by
  induction rs using List.reverseRecOn with
  | nil => rfl
  | append_singleton rs r ih =>
    rw [buildGraph_append, edgeLookup_addEdge]
    simp only [lastTxnTo, List.reverse_append, List.reverse_cons, List.reverse_nil,
      List.nil_append, List.singleton_append, List.find?]
    by_cases h : r.nameOrig = u ∧ r.nameDest = v
    · simp [h, h.1, h.2]
    · have hp : ¬(r.nameOrig = u && r.nameDest = v) = true := by
        simpa [Bool.and_eq_true, decide_eq_true_iff] using h
      rw [if_neg h, ih, lastTxnTo]
      simp only [Bool.not_eq_true] at hp
      rw [hp]

lemma map_edgeKey_updateEdges (es : List Edge) (u v : NodeId) (w : ℚ) (t : String) :
    (updateEdges es u v w t).map edgeKey =
      if (u, v) ∈ es.map edgeKey then es.map edgeKey
      else es.map edgeKey ++ [(u, v)] := by
  induction es with
  | nil => simp [updateEdges, edgeKey]
  | cons e es ih =>
    by_cases he : e.src = u ∧ e.dst = v
    · rw [updateEdges, if_pos he]
      have hmem : (u, v) ∈ (e :: es).map edgeKey := by
        simp [edgeKey, he.1, he.2]
      rw [if_pos hmem]
      simp [edgeKey, he.1, he.2]
    · rw [updateEdges, if_neg he]
      have hk : edgeKey e ≠ (u, v) := by
        simp only [edgeKey, Prod.mk.injEq, ne_eq, not_and]
        intro h1 h2
        exact he ⟨h1, h2⟩
      by_cases hm : (u, v) ∈ es.map edgeKey
      · simp [ih, hm, hk, Ne.symm hk]
      · simp [ih, hm, hk, Ne.symm hk]

lemma nodup_keys_buildGraph (rs : List Txn) :
    ((buildGraph rs).edges.map edgeKey).Nodup := by
  induction rs using List.reverseRecOn with
  | nil => simp [buildGraph, emptyGraph]
  | append_singleton rs r ih =>
    rw [buildGraph_append]
    show ((updateEdges (buildGraph rs).edges r.nameOrig r.nameDest r.amount r.type).map
      edgeKey).Nodup
    rw [map_edgeKey_updateEdges]
    by_cases h : (r.nameOrig, r.nameDest) ∈ ((buildGraph rs).edges.map edgeKey)
    · simpa [h] using ih
    · simp [h, List.nodup_append, ih]

/-! ### The in-degree of a node counts its distinct senders -/

lemma mem_src_inEdges_iff_lookup (g : Graph) (u v : NodeId) :
    u ∈ (inEdges g v).map Edge.src ↔ (edgeLookup g u v).isSome := by
  simp only [inEdges, edgeLookup, Option.isSome_map', List.find?_isSome, List.mem_map,
    List.mem_filter, Bool.and_eq_true, decide_eq_true_iff]
  constructor
  · rintro ⟨e, ⟨hmem, hdst⟩, rfl⟩
    exact ⟨e, hmem, rfl, hdst⟩
  · rintro ⟨e, hmem, hsrc, hdst⟩
    exact ⟨e, ⟨hmem, hdst⟩, hsrc⟩

lemma mem_sendersInto_iff (rs : List Txn) (u v : NodeId) :
    u ∈ sendersInto rs v ↔ ∃ r ∈ rs, r.nameOrig = u ∧ r.nameDest = v := by
  simp only [sendersInto, List.mem_map, List.mem_filter, decide_eq_true_iff]
  constructor
  · rintro ⟨r, ⟨hmem, hdst⟩, rfl⟩
    exact ⟨r, hmem, rfl, hdst⟩
  · rintro ⟨r, hmem, hsrc, hdst⟩
    exact ⟨r, ⟨hmem, hdst⟩, hsrc⟩

lemma lookup_isSome_iff (rs : List Txn) (u v : NodeId) :
    (edgeLookup (buildGraph rs) u v).isSome ↔
      ∃ r ∈ rs, r.nameOrig = u ∧ r.nameDest = v := by
  rw [edgeLookup_buildGraph]
  simp [lastTxnTo, List.find?_isSome]

lemma nodup_src_inEdges (rs : List Txn) (v : NodeId) :
    ((inEdges (buildGraph rs) v).map Edge.src).Nodup := by
  have hkeys : (buildGraph rs).edges.Pairwise (fun a b => edgeKey a ≠ edgeKey b) := by
    have := nodup_keys_buildGraph rs
    rwa [List.Nodup, List.pairwise_map] at this
  have hfil : (inEdges (buildGraph rs) v).Pairwise (fun a b => edgeKey a ≠ edgeKey b) :=
    hkeys.sublist (List.filter_sublist _)
  rw [List.Nodup, List.pairwise_map]
  refine List.Pairwise.imp_of_mem ?_ hfil
  intro a b ha hb hk
  have hda : a.dst = v := by
    have := (List.mem_filter.mp ha).2
    simpa using this
  have hdb : b.dst = v := by
    have := (List.mem_filter.mp hb).2
    simpa using this
  intro hsrc
  exact hk (by simp [edgeKey, hsrc, hda, hdb])

lemma inDegree_buildGraph_eq_dedup (rs : List Txn) (v : NodeId) :
    inDegree (buildGraph rs) v = (sendersInto rs v).dedup.length := by
  have hmem : ∀ u, u ∈ (inEdges (buildGraph rs) v).map Edge.src ↔ u ∈ sendersInto rs v := by
    intro u
    rw [mem_src_inEdges_iff_lookup, lookup_isSome_iff, mem_sendersInto_iff]
  have hfin : ((inEdges (buildGraph rs) v).map Edge.src).toFinset =
      (sendersInto rs v).toFinset := by
    ext u
    simp only [List.mem_toFinset]
    exact hmem u
  have h1 : ((inEdges (buildGraph rs) v).map Edge.src).toFinset.card =
      ((inEdges (buildGraph rs) v).map Edge.src).length :=
    List.toFinset_card_of_nodup (nodup_src_inEdges rs v)
  have h2 : (sendersInto rs v).toFinset.card = (sendersInto rs v).dedup.length :=
    List.card_toFinset _
  have h3 : ((inEdges (buildGraph rs) v).map Edge.src).length = inDegree (buildGraph rs) v := by
    simp [inDegree]
  rw [← h3, ← h1, hfin, h2]

/-! ### Detector lemmas -/

lemma hubPred_true_iff (dmin : ℕ) (mmax : ℚ) (g : Graph) (v : NodeId) :
    hubPred dmin mmax g v = true ↔ dmin ≤ inDegree g v ∧ meanInbound g v < mmax := by
  simp [hubPred]

lemma detectStep_eq (dmin : ℕ) (mmax : ℚ) (g : Graph) (acc : List NodeId) (v : NodeId) :
    detectStep dmin mmax (g, acc) v =
      (g, acc ++ if hubPred dmin mmax g v then [v] else []) := by
  simp only [detectStep, hubPred, inDegree, inAmounts, meanInbound]
  by_cases h1 : dmin ≤ (inEdges g v).length
  · by_cases h2 :
      ((inEdges g v).map Edge.weight).sum / (((inEdges g v).length : ℕ) : ℚ) < mmax
    · simp [h1, h2]
    · simp [h1, h2]
  · simp [h1]

lemma foldl_detectStep (dmin : ℕ) (mmax : ℚ) (g : Graph) (ns : List NodeId)
    (acc : List NodeId) :
    ns.foldl (detectStep dmin mmax) (g, acc) =
      (g, acc ++ ns.filter (hubPred dmin mmax g)) := by
  induction ns generalizing acc with
  | nil => simp
  | cons n ns ih =>
    rw [List.foldl_cons, detectStep_eq, ih, List.filter_cons]
    by_cases h : hubPred dmin mmax g n = true <;> simp [h]

lemma hubPredChecked_eq (dmin : ℕ) (mmax : ℚ) (g : Graph) (v : NodeId)
    (h : 1 ≤ dmin) :
    hubPredChecked dmin mmax g v = some (hubPred dmin mmax g v) := by
  rw [hubPredChecked, hubPred]
  by_cases hd : dmin ≤ inDegree g v
  · have hne : inDegree g v ≠ 0 := by omega
    have hnil : inEdges g v ≠ [] := by
      intro hh
      apply hne
      simp [inDegree, hh]
    simp only [inDegree] at hd
    simp [hd, qdivChecked, hne, hnil, meanInbound, inAmounts, inDegree]
  · simp [hd]

lemma foldr_checked (dmin : ℕ) (mmax : ℚ) (g : Graph) (h : 1 ≤ dmin)
    (ns : List NodeId) :
    ns.foldr
      (fun v acc =>
        (hubPredChecked dmin mmax g v).bind
          (fun b => acc.map (fun rest => if b then v :: rest else rest)))
      (some []) = some (ns.filter (hubPred dmin mmax g)) := by
  induction ns with
  | nil => rfl
  | cons n ns ih =>
    rw [List.foldr_cons, ih, hubPredChecked_eq dmin mmax g n h, List.filter_cons]
    by_cases hb : hubPred dmin mmax g n = true <;> simp [hb]

lemma meanInbound_nonneg (g : Graph) (v : NodeId)
    (h : ∀ e ∈ g.edges, 0 ≤ e.weight) : 0 ≤ meanInbound g v := by
  rw [meanInbound]
  apply div_nonneg
  · apply List.sum_nonneg
    intro x hx
    simp only [inAmounts, List.mem_map] at hx
    obtain ⟨e, he, rfl⟩ := hx
    exact h e (List.mem_filter.mp he).1
  · positivity

lemma mem_addNode (ns : List NodeId) (x : NodeId) : x ∈ addNode ns x := by
  rw [addNode]
  split <;> simp_all

lemma mem_addNode_of_mem (ns : List NodeId) (x y : NodeId) (h : y ∈ ns) :
    y ∈ addNode ns x := by
  rw [addNode]
  split <;> simp [h]

/-! ### Claims -/

/-- C1 counterexample: two retained transactions over the same ordered pair
`A → R` leave `R` with inbound edge count 1, not 2: the `DiGraph` builder
deduplicates the parallel edge and keeps only the second amount, so the
inbound edge count is NOT the number of retained transactions into the
node, refuting the claim at this concrete input. -/
theorem c1_counterexample :
    inDegree (buildPipeline dupTxns) (some "R") = 1 ∧
    ((dfSample dupTxns).filter (fun r => r.nameDest = some "R")).length = 2 ∧
    inAmounts (buildPipeline dupTxns) (some "R") = [200] := by
  refine ⟨by decide, by decide, by decide⟩

/-- C1 (amended): repeated sender→receiver pairs are NOT retained as
independent edges: the builder keeps at most one edge per ordered pair, so a
node's inbound edge count equals the number of DISTINCT retained senders
into it, not the number of retained transactions. -/
theorem c1_amended_distinct_senders (rs : List Txn) (v : NodeId) :
    inDegree (buildPipeline rs) v = (sendersInto (dfSample rs) v).dedup.length :=
  inDegree_buildGraph_eq_dedup (dfSample rs) v

/-- C2: a node is emitted by the detector iff it is a graph node with
`in_degree >= min_in_degree` (inclusive) and mean inbound amount strictly
below `max_mean_amount`; both soundness and completeness of the emitted
classification. -/
theorem c2_hub_iff (dmin : ℕ) (mmax : ℚ) (g : Graph) (v : NodeId) :
    v ∈ detectWith dmin mmax g ↔
      v ∈ g.nodes ∧ dmin ≤ inDegree g v ∧ meanInbound g v < mmax := by
  rw [detectWith, List.mem_filter, hubPred_true_iff]

/-- C3 counterexample: on Scenario A the detector emits the bare node id
`"R1"` and nothing else — `suspicious_accounts.append(node)` stores no
in-degree, no mean and no inbound edge list.  The spec-modelled
`HubClassification` that the claim says is emitted is shown alongside for
contrast: the script's output is only its id projection. -/
theorem c3_counterexample :
    detect (buildPipeline scenarioA) = [some "R1"] ∧
    detectFull 5 50000 (buildPipeline scenarioA) =
      [⟨some "R1", 5, 2000,
        [(some "S1", (1000 : ℚ)), (some "S2", 2000), (some "S3", 1500),
         (some "S4", 3000), (some "S5", 2500)]⟩] := by
  have hd : detectWith 5 50000 (buildPipeline scenarioA) = [some "R1"] := by
    simp +decide only [detectWith, buildPipeline, dfSample, scenarioA, mkTxn, buildGraph,
      emptyGraph, addEdge, addNode, updateEdges, keepTxn, sampleSize, inEdges, inDegree,
      inAmounts, meanInbound, hubPred, List.filter, List.foldl, List.take, List.sum_cons,
      List.sum_nil, List.length, List.map]
    norm_num
  have hm : meanInbound (buildPipeline scenarioA) (some "R1") =
      (([1000, 2000, 1500, 3000, 2500] : List ℚ).sum / ((5 : ℕ) : ℚ)) := rfl
  have hdeg : inDegree (buildPipeline scenarioA) (some "R1") = 5 := by decide
  have hpairs : (inEdges (buildPipeline scenarioA) (some "R1")).map
      (fun e => (e.src, e.weight)) =
      [(some "S1", (1000 : ℚ)), (some "S2", 2000), (some "S3", 1500),
       (some "S4", 3000), (some "S5", 2500)] := by decide
  have hmean : meanInbound (buildPipeline scenarioA) (some "R1") = 2000 := by
    rw [hm]
    norm_num
  refine ⟨hd, ?_⟩
  rw [detectFull, hd]
  simp [hdeg, hpairs, hmean]

/-- C3 (amended): the detector emits only the node id of each hub; the
classification data the spec lists is not attached to the output, but it is
recoverable from the read-only graph: the script's output is exactly the id
projection of the spec-modelled full classification, each detected node's
full record is in that list, its mean is exactly the inbound sum divided by
the inbound count, and that mean is strictly below the threshold. -/
theorem c3_amended_id_projection (dmin : ℕ) (mmax : ℚ) (g : Graph) (v : NodeId)
    (hv : v ∈ detectWith dmin mmax g) :
    detectWith dmin mmax g = (detectFull dmin mmax g).map HubClassification.account_id ∧
    (⟨v, inDegree g v, meanInbound g v,
        (inEdges g v).map (fun e => (e.src, e.weight))⟩ : HubClassification) ∈
      detectFull dmin mmax g ∧
    meanInbound g v = (inAmounts g v).sum / ((inAmounts g v).length : ℚ) ∧
    meanInbound g v < mmax := by
  refine ⟨?_, ?_, ?_, ?_⟩
  · rw [detectFull, List.map_map]
    exact (List.map_id _).symm
  · exact List.mem_map_of_mem _ hv
  · simp [meanInbound, inAmounts, inDegree]
  · have h := (List.mem_filter.mp hv).2
    rw [hubPred_true_iff] at h
    exact h.2

/-- C3 amended witness: the amended statement instantiated on Scenario A at
the detected hub `"R1"`. -/
theorem c3_amended_id_projection_witness :
    detectWith 5 50000 (buildPipeline scenarioA) =
      (detectFull 5 50000 (buildPipeline scenarioA)).map HubClassification.account_id ∧
    (⟨some "R1", inDegree (buildPipeline scenarioA) (some "R1"),
        meanInbound (buildPipeline scenarioA) (some "R1"),
        (inEdges (buildPipeline scenarioA) (some "R1")).map
          (fun e => (e.src, e.weight))⟩ : HubClassification) ∈
      detectFull 5 50000 (buildPipeline scenarioA) ∧
    meanInbound (buildPipeline scenarioA) (some "R1") =
      (inAmounts (buildPipeline scenarioA) (some "R1")).sum /
        ((inAmounts (buildPipeline scenarioA) (some "R1")).length : ℚ) ∧
    meanInbound (buildPipeline scenarioA) (some "R1") < 50000 := by
  apply c3_amended_id_projection
  have hd : detectWith 5 50000 (buildPipeline scenarioA) = [some "R1"] := by
    simp +decide only [detectWith, buildPipeline, dfSample, scenarioA, mkTxn, buildGraph,
      emptyGraph, addEdge, addNode, updateEdges, keepTxn, sampleSize, inEdges, inDegree,
      inAmounts, meanInbound, hubPred, List.filter, List.foldl, List.take, List.sum_cons,
      List.sum_nil, List.length, List.map]
    norm_num
  rw [hd]
  exact List.mem_singleton_self _

/-- C4: Scenario A (five distinct senders into `R1` with amounts
[1000, 2000, 1500, 3000, 2500] plus one unrelated edge) yields exactly the
one result `R1` with in-degree 5 and mean 2000; Scenario B (amounts
[40000, 60000, 45000, 55000, 50000], mean exactly 50000) yields the empty
result because the mean is not strictly below the threshold. -/
theorem c4_scenarios_a_b :
    detect (buildPipeline scenarioA) = [some "R1"] ∧
    inDegree (buildPipeline scenarioA) (some "R1") = 5 ∧
    meanInbound (buildPipeline scenarioA) (some "R1") = 2000 ∧
    detect (buildPipeline scenarioB) = [] := by
  refine ⟨?_, by decide, ?_, ?_⟩
  · simp +decide only [detect, detectWith, buildPipeline, dfSample, scenarioA, mkTxn,
      buildGraph, emptyGraph, addEdge, addNode, updateEdges, keepTxn, sampleSize, inEdges,
      inDegree, inAmounts, meanInbound, hubPred, List.filter, List.foldl, List.take,
      List.sum_cons, List.sum_nil, List.length, List.map]
    norm_num
  · have hm : meanInbound (buildPipeline scenarioA) (some "R1") =
        (([1000, 2000, 1500, 3000, 2500] : List ℚ).sum / ((5 : ℕ) : ℚ)) := rfl
    rw [hm]
    norm_num
  · simp +decide only [detect, detectWith, buildPipeline, dfSample, scenarioB, mkTxn,
      buildGraph, emptyGraph, addEdge, addNode, updateEdges, keepTxn, sampleSize, inEdges,
      inDegree, inAmounts, meanInbound, hubPred, List.filter, List.foldl, List.take,
      List.sum_cons, List.sum_nil, List.length, List.map]
    norm_num

/-- C5 counterexample: a retained record whose sender id is missing (`none`,
the pandas `NaN`) is NOT dropped: the build inserts it, producing one edge
and registering the missing value itself as a graph node — refuting the
claim that such a record contributes no edge or node. -/
theorem c5_counterexample :
    (buildPipeline [missingTxn]).edges.length = 1 ∧
    none ∈ (buildPipeline [missingTxn]).nodes := by
  refine ⟨by decide, by decide⟩

/-- C5 (amended): the build never aborts and never drops a record for a
missing id — there is no missing-id check at all: EVERY record, missing ids
included, ends up as a stored edge carrying its amount and type, with both
endpoints (missing or not) registered as nodes. -/
theorem c5_amended_not_dropped (rs : List Txn) (r : Txn) :
    edgeLookup (buildGraph (rs ++ [r])) r.nameOrig r.nameDest = some (r.amount, r.type) ∧
    r.nameOrig ∈ (buildGraph (rs ++ [r])).nodes ∧
    r.nameDest ∈ (buildGraph (rs ++ [r])).nodes := by
  refine ⟨?_, ?_, ?_⟩
  · rw [edgeLookup_buildGraph]
    simp [lastTxnTo, List.reverse_append, List.find?]
  · rw [buildGraph_append]
    exact mem_addNode_of_mem _ _ _ (mem_addNode _ _)
  · rw [buildGraph_append]
    exact mem_addNode _ _

/-- C6 counterexample: an out-of-range threshold is NOT rejected at
configuration time: running the detector with a negative `max_mean_amount`
on Scenario A performs the whole scan and returns a normally computed
(empty) result instead of an invalid-configuration error; and the script's
own detector takes no threshold parameters at all — it is the parametric
loop with `5` and `50000` baked in. -/
theorem c6_counterexample :
    detectWith 5 (-1) (buildPipeline scenarioA) = [] ∧
    detect (buildPipeline scenarioA) = detectWith 5 50000 (buildPipeline scenarioA) := by
  constructor
  · simp +decide only [detectWith, buildPipeline, dfSample, scenarioA, mkTxn, buildGraph,
      emptyGraph, addEdge, addNode, updateEdges, keepTxn, sampleSize, inEdges, inDegree,
      inAmounts, meanInbound, hubPred, List.filter, List.foldl, List.take, List.sum_cons,
      List.sum_nil, List.length, List.map]
    norm_num
  · rfl

/-- C6 (amended): the thresholds are hard-coded constants (`5`, `50000`)
and no configuration-time validation exists; an out-of-range
`max_mean_amount` is silently accepted and detection proceeds, yielding the
empty sequence (on graphs with nonnegative amounts) rather than an
invalid-configuration error. -/
theorem c6_amended_no_validation (g : Graph) (h : ∀ e ∈ g.edges, 0 ≤ e.weight) :
    detect g = detectWith 5 50000 g ∧ detectWith 5 (-1) g = [] := by
  refine ⟨rfl, ?_⟩
  rw [detectWith, List.filter_eq_nil_iff]
  intro v hv
  rw [hubPred_true_iff]
  rintro ⟨_, hlt⟩
  have h0 := meanInbound_nonneg g v h
  linarith

/-- C6 amended witness: the amended statement instantiated on Scenario A,
whose amounts are all nonnegative. -/
theorem c6_amended_no_validation_witness :
    detect (buildPipeline scenarioA) = detectWith 5 50000 (buildPipeline scenarioA) ∧
    detectWith 5 (-1) (buildPipeline scenarioA) = [] :=
  c6_amended_no_validation (buildPipeline scenarioA) (by decide)

/-- C7: the detector's result length is antitone in `min_in_degree` and
monotone in `max_mean_amount`: tightening either threshold (raising the
degree bound, lowering the mean bound) never increases the number of hubs
returned. -/
theorem c7_threshold_monotone (g : Graph) (d d' : ℕ) (m m' : ℚ)
    (hd : d ≤ d') (hm : m' ≤ m) :
    (detectWith d' m' g).length ≤ (detectWith d m g).length := by
  apply List.Sublist.length_le
  apply List.monotone_filter_right
  intro v hv
  rw [hubPred_true_iff] at hv ⊢
  exact ⟨le_trans hd hv.1, lt_of_lt_of_le hv.2 hm⟩

/-- C7 witness: tightening both thresholds on Scenario A does not increase
the result length. -/
theorem c7_threshold_monotone_witness :
    (detectWith 6 40000 (buildPipeline scenarioA)).length ≤
      (detectWith 5 50000 (buildPipeline scenarioA)).length :=
  c7_threshold_monotone (buildPipeline scenarioA) 5 6 50000 40000 (by decide) (by norm_num)

/-- C8: the smurf-hunting loop with the program state (graph, accumulator)
threaded explicitly finishes with the graph EXACTLY as it started and with
the accumulator equal to the pure filter of the node list — so `detect` is
a pure, deterministic, order-stable function of the graph and thresholds,
and the graph is unchanged by any number of detect passes. -/
theorem c8_detect_pure (dmin : ℕ) (mmax : ℚ) (g : Graph) :
    detectRun dmin mmax g = (g, detectWith dmin mmax g) := by
  rw [detectRun, foldl_detectStep]
  simp [detectWith]

/-- C9: with any positive `min_in_degree` (the script uses 5), every
division the detector performs has a nonzero divisor — the checked-division
detector never signals a division by zero and agrees with the plain
detector — and on the empty graph the detector returns the empty sequence
rather than raising. -/
theorem c9_guarded_division (dmin : ℕ) (mmax : ℚ) (g : Graph) (h : 1 ≤ dmin) :
    detectChecked dmin mmax g = some (detectWith dmin mmax g) ∧
    detectWith dmin mmax emptyGraph = [] := by
  refine ⟨?_, rfl⟩
  rw [detectChecked, detectWith]
  exact foldr_checked dmin mmax g h g.nodes

/-- C9 witness: the guarded-division statement instantiated at the script's
thresholds on Scenario A. -/
theorem c9_guarded_division_witness :
    detectChecked 5 50000 (buildPipeline scenarioA) =
      some (detectWith 5 50000 (buildPipeline scenarioA)) ∧
    detectWith 5 50000 emptyGraph = [] :=
  c9_guarded_division 5 50000 (buildPipeline scenarioA) (by decide)

/-- C10: the `DiGraph` builder keeps at most one edge per ordered
`(sender, receiver)` pair (the stored keys are duplicate-free); the stored
attributes for a pair are exactly the amount and type of the MOST RECENT
record over that pair (later inserts overwrite); and a node's in-degree
equals the number of distinct senders that ever transferred to it. -/
theorem c10_single_edge_per_pair (rs : List Txn) (u v : NodeId) :
    ((buildGraph rs).edges.map edgeKey).Nodup ∧
    edgeLookup (buildGraph rs) u v =
      (lastTxnTo rs u v).map (fun r => (r.amount, r.type)) ∧
    inDegree (buildGraph rs) v = (sendersInto rs v).dedup.length :=
  ⟨nodup_keys_buildGraph rs, edgeLookup_buildGraph rs u v,
    inDegree_buildGraph_eq_dedup rs v⟩

end AmlEngine
